import Mathlib

/-!
Shallow embedding of the core of the Meteora liquidity rebalancer
(`src/meteoraOptimizer.ts`, generic asset-pair variant, together with the
historical SOL/USDC variant where a claim refers to it).

Numbers that the TypeScript source manipulates as JS floats are modelled as
rationals (`ℚ`); bin ids as integers (`ℤ`); JS string operations on `String`.
Each external collaborator call (wallet, Meteora protocol, Jupiter swap) is
modelled by the outcome the surrounding code observes, so that the control
flow of the embedded functions is translated line by line from the source.
-/

namespace MeteoraRebalancer

/-- `pat` occurs as a contiguous run somewhere in the character list. -/
def charsInclude (pat : List Char) : List Char → Bool
  | [] => pat.isPrefixOf []
  | c :: cs => pat.isPrefixOf (c :: cs) || charsInclude pat cs

/-- JS `s.includes(pat)`: `pat` occurs as a contiguous substring of `s`
(case-sensitive, as in JS). -/
def strIncludes (s pat : String) : Bool :=
  charsInclude pat.toList s.toList

/-- `METERORA_MAX_BINS_PER_SIDE = 34` (constant at the top of the module). -/
def METERORA_MAX_BINS_PER_SIDE : ℤ := 34

/-!  ## BalanceProvider: `getUsableBalances` -/

/-- `getUsableBalances`: raw wallet balances with the native-token fee buffer
applied.  Translated from `meteoraOptimizer.ts` lines 59–76: the asset flagged
native gets `Math.max(0, balance - NATIVE_TOKEN_FEE_BUFFER)`, the other asset
passes through unchanged.  The wallet queries are modelled by the raw balances
`assetABalance`/`assetBBalance` they return. -/
def getUsableBalances (isAssetANative isAssetBNative : Bool)
    (assetABalance assetBBalance feeBuffer : ℚ) : ℚ × ℚ :=
  (if isAssetANative then max 0 (assetABalance - feeBuffer) else assetABalance,
   if isAssetBNative then max 0 (assetBBalance - feeBuffer) else assetBBalance)

/-!  ## RetryExecutor: `retry` -/

/-- Observable outcome of `retry`: the returned value or thrown error,
together with the number of attempts actually made and the number of
inter-attempt delays performed. -/
inductive RetryResult (α : Type) where
  /-- `fn` returned a value: `ok value attemptsMade delays`. -/
  | ok : α → ℕ → ℕ → RetryResult α
  /-- the error message matched `'insufficient funds'` and a fresh
  `Error('Insufficient funds')` was thrown: `fatal message attemptsMade delays`. -/
  | fatal : String → ℕ → ℕ → RetryResult α
  /-- the loop exhausted its attempts and `lastError` was thrown
  (`none` when the loop never ran): `thrownLast lastError attemptsMade delays`. -/
  | thrownLast : Option String → ℕ → ℕ → RetryResult α
  deriving DecidableEq

/-- The `for (let attempt = 0; attempt < retries; attempt++)` loop of `retry`
(`meteoraOptimizer.ts` lines 82–99).  `fn i` is the outcome of the `i`-th
invocation of the wrapped operation. -/
def retryLoop {α : Type} (fn : ℕ → Except String α) (retries : ℕ)
    (attempt delays : ℕ) (lastError : Option String) : RetryResult α :=
  if h : attempt < retries then
    match fn attempt with
    | .ok v => .ok v (attempt + 1) delays
    | .error e =>
      if strIncludes e "insufficient funds" then
        .fatal "Insufficient funds" (attempt + 1) delays
      else if attempt < retries - 1 then
        retryLoop fn retries (attempt + 1) (delays + 1) (some e)
      else
        retryLoop fn retries (attempt + 1) delays (some e)
  else
    .thrownLast lastError attempt delays
termination_by retries - attempt
decreasing_by
  · omega
  · omega

/-- `retry(fn, retries = 3, delayMs = 1000)`: run the loop from attempt 0. -/
def retry {α : Type} (fn : ℕ → Except String α) (retries : ℕ := 3) : RetryResult α :=
  retryLoop fn retries 0 0 none

/-!  ## RebalanceCalculator: the swap decision inside `rebalancePosition` -/

/-- The swap decided by one `rebalancePosition` call. -/
inductive SwapPlan where
  | sellAForB : ℚ → SwapPlan
  | sellBForA : ℚ → SwapPlan
  | noSwap : SwapPlan
  deriving DecidableEq

/-- Swap decision of the generic-pair `rebalancePosition`
(`meteoraOptimizer.ts` lines 254–303): 50/50 targets in assetB terms, sell the
surplus side; no minimum-size gate in this variant. -/
def rebalancePlan (assetAAmount assetBAmount currentPrice : ℚ) : SwapPlan :=
  let totalValueInAssetB := assetAAmount * currentPrice + assetBAmount
  let targetValueInAssetB := totalValueInAssetB / 2
  let targetAssetABalance := targetValueInAssetB / currentPrice
  let targetAssetBBalance := targetValueInAssetB
  if assetAAmount > targetAssetABalance then
    .sellAForB (assetAAmount - targetAssetABalance)
  else if assetBAmount > targetAssetBBalance then
    .sellBForA (assetBAmount - targetAssetBBalance)
  else
    .noSwap

/-- Swap decision of the historical SOL/USDC `rebalancePosition`
(`meteoraOptimizer.ts` lines 616–706): same 50/50 targets, but a surplus below
`0.01` returns early without swapping. -/
def rebalancePlanSolUsdc (positionSol positionUsdc currentPrice : ℚ) : SwapPlan :=
  let totalValueInUsd := positionSol * currentPrice + positionUsdc
  let targetValueInUsd := totalValueInUsd / 2
  let targetSolBalance := targetValueInUsd / currentPrice
  let targetUsdcBalance := targetValueInUsd
  if positionSol > targetSolBalance then
    let solToSwap := positionSol - targetSolBalance
    if solToSwap < 1 / 100 then .noSwap else .sellAForB solToSwap
  else if positionUsdc > targetUsdcBalance then
    let usdcToSwap := positionUsdc - targetUsdcBalance
    if usdcToSwap < 1 / 100 then .noSwap else .sellBForA usdcToSwap
  else
    .noSwap

/-!  ## PoolSelector: `getGoodPool` -/

/-- Fields of a candidate pool that `getGoodPool` reads. -/
structure PoolInfo where
  address : String
  bin_step : ℤ
  trade_volume_24h : ℚ
  deriving DecidableEq

/-- The callback of the `filteredPools.reduce(..., null)` in `getGoodPool`:
`!maxPool || currentPool.trade_volume_24h > maxPool.trade_volume_24h`
keeps `currentPool`, otherwise `maxPool`. -/
def poolReduceStep (maxPool : Option PoolInfo) (currentPool : PoolInfo) : Option PoolInfo :=
  match maxPool with
  | none => some currentPool
  | some mp =>
    if currentPool.trade_volume_24h > mp.trade_volume_24h then some currentPool
    else some mp

/-- `getGoodPool` (`meteoraOptimizer.ts` lines 101–131) applied to the
candidate list returned by `getPools`: compute
`minBinStep = Math.ceil(positionRangePerSide * 10000 / METERORA_MAX_BINS_PER_SIDE)`,
filter to `bin_step >= minBinStep`, and reduce with `poolReduceStep` starting
from `null`. -/
def getGoodPool (pools : List PoolInfo) (positionRangePerSide : ℚ) : Option PoolInfo :=
  let minBinStep : ℤ := ⌈positionRangePerSide * 10000 / 34⌉
  let filteredPools := pools.filter (fun pool => minBinStep ≤ pool.bin_step)
  filteredPools.foldl poolReduceStep none

/-- Left-to-right scan keeping the element with the strictly highest
`trade_volume_24h`, ties keeping the earlier element. -/
def runningBest (best : PoolInfo) : List PoolInfo → PoolInfo
  | [] => best
  | p :: ps =>
    if p.trade_volume_24h > best.trade_volume_24h then runningBest p ps
    else runningBest best ps

/-- The first element of the list attaining the maximal `trade_volume_24h`
(`none` on the empty list): the specification of the source's reduce. -/
def firstHighestVolume : List PoolInfo → Option PoolInfo
  | [] => none
  | p :: ps => some (runningBest p ps)

/-!  ## `addLiquidity`: the bin range interval -/

/-- The `rangeInterval` passed to `meteora.addLiquidity`
(`meteoraOptimizer.ts` lines 326–336):
`Math.min(Math.ceil(positionRangePerSide * 10000 / workingPoolBinStep), METERORA_MAX_BINS_PER_SIDE)`. -/
def addLiquidityRangeInterval (positionRangePerSide workingPoolBinStep : ℚ) : ℤ :=
  min ⌈positionRangePerSide * 10000 / workingPoolBinStep⌉ METERORA_MAX_BINS_PER_SIDE

/-!  ## PositionController: the `optimize` tick -/

/-- The mutable fields of `MeteoraOptimizer` that a tick reads and writes
(the "WorkingPool" value of the design). -/
structure OptState where
  workingPoolAddress : Option String
  workingPoolBinStep : Option ℤ
  currLowerBinId : ℤ
  currUpperBinId : ℤ
  deriving DecidableEq

/-- Externally observable steps a tick performs, in order. -/
inductive Action where
  | getActiveBin
  | removeLiquidity
  | verifyBuffer
  | rebalanceSwap
  | addLiquidity
  | coldStart
  | alert : String → Action
  deriving DecidableEq

/-- Outcomes of the external collaborator calls made by one `optimize` tick.
`activeBinId` is the bin id the (retry-wrapped) `getActiveBin` resolves with;
`removeLiquidity`/`rebalance` are the outcomes of those whole sub-calls;
`nativeBalance` is the raw native balance `verifyNativeTokenBuffer` reads;
`addLiquidityResult` is the (lowerBinId, upperBinId) of the position read back
after `addLiquidity` (whose own internal buffer re-check and retries are
subsumed in its outcome); `coldStart` is the state `loadInitialState` leaves
behind when the catch block re-runs it. -/
structure TickEnv where
  activeBinId : Except String ℤ
  removeLiquidity : Except String Unit
  nativeBalance : ℚ
  rebalance : Except String Unit
  addLiquidityResult : Except String (ℤ × ℤ)
  coldStart : Except String OptState

/-- Error message thrown by `verifyNativeTokenBuffer` (lines 158–171). -/
def insufficientNativeMsg : String :=
  "Insufficient native token balance for transaction and position creation fees"

/-- The `try` block of `optimize` (`meteoraOptimizer.ts` lines 389–416):
returns the trace of steps performed together with either the thrown error or
the updated state and the `boolean` result.  Out-of-range condition, step
order and the state update are translated line by line from the source
(`removeLiquidity`, then `verifyNativeTokenBuffer`, then `rebalancePosition`,
then `addLiquidity`, which stores the new position's lower/upper bin ids). -/
def optimizeTry (st : OptState) (env : TickEnv) (feeBuffer : ℚ) :
    List Action × Except String (OptState × Bool) :=
  match st.workingPoolAddress with
  | none => ([], .error "No working pool address found")
  | some _ =>
    match env.activeBinId with
    | .error e => ([.getActiveBin], .error e)
    | .ok binId =>
      if binId < st.currLowerBinId ∨ binId > st.currUpperBinId then
        match env.removeLiquidity with
        | .error e => ([.getActiveBin, .removeLiquidity], .error e)
        | .ok _ =>
          if env.nativeBalance < feeBuffer then
            ([.getActiveBin, .removeLiquidity, .verifyBuffer], .error insufficientNativeMsg)
          else
            match env.rebalance with
            | .error e =>
              ([.getActiveBin, .removeLiquidity, .verifyBuffer, .rebalanceSwap], .error e)
            | .ok _ =>
              match env.addLiquidityResult with
              | .error e =>
                ([.getActiveBin, .removeLiquidity, .verifyBuffer, .rebalanceSwap,
                  .addLiquidity], .error e)
              | .ok (lo, hi) =>
                ([.getActiveBin, .removeLiquidity, .verifyBuffer, .rebalanceSwap,
                  .addLiquidity],
                 .ok ({ st with currLowerBinId := lo, currUpperBinId := hi }, true))
      else
        ([.getActiveBin], .ok (st, false))

/-- `optimize` (`meteoraOptimizer.ts` lines 388–429): the `try` block plus the
`catch` block, which on a `'No positions found in this pool'` error re-runs
`loadInitialState`, and in every caught case sends an alert and returns
`false`.  The only way `optimize` itself rejects is a failure of that inner
`loadInitialState` call, which the `catch` does not guard. -/
def optimize (st : OptState) (env : TickEnv) (feeBuffer : ℚ) :
    Except String (OptState × Bool × List Action) :=
  match optimizeTry st env feeBuffer with
  | (trace, .ok (st2, changed)) => .ok (st2, changed, trace)
  | (trace, .error e) =>
    if strIncludes e "No positions found in this pool" then
      match env.coldStart with
      | .error e2 => .error e2
      | .ok st2 => .ok (st2, false, trace ++ [.coldStart, .alert e])
    else
      .ok (st, false, trace ++ [.alert e])

/-!  ## Theorems -/

/-- The reduce of `getGoodPool` started from an element is `runningBest`. -/
theorem foldl_poolReduceStep_some (l : List PoolInfo) : ∀ m,
    l.foldl poolReduceStep (some m) = some (runningBest m l) := by
  induction l with
  | nil => intro m; rfl
  | cons p ps ih =>
    intro m
    by_cases h : p.trade_volume_24h > m.trade_volume_24h <;>
      simp [poolReduceStep, runningBest, h, ih]

/-- `getGoodPool` returns the first highest-volume element of the filtered
candidate list. -/
theorem getGoodPool_eq_firstHighestVolume (pools : List PoolInfo) (r : ℚ) :
    getGoodPool pools r =
      firstHighestVolume (pools.filter (fun p => (⌈r * 10000 / 34⌉ : ℤ) ≤ p.bin_step)) := by
  simp only [getGoodPool]
  cases hf : pools.filter (fun p => (⌈r * 10000 / 34⌉ : ℤ) ≤ p.bin_step) with
  | nil => rfl
  | cons p ps =>
    show List.foldl poolReduceStep (poolReduceStep none p) ps = _
    rw [show poolReduceStep none p = some p from rfl, foldl_poolReduceStep_some]
    rfl

/-- `runningBest m l` is `m` or an element of `l`. -/
theorem runningBest_mem (l : List PoolInfo) : ∀ m,
    runningBest m l = m ∨ runningBest m l ∈ l := by
  induction l with
  | nil => intro m; exact Or.inl rfl
  | cons p ps ih =>
    intro m
    by_cases h : p.trade_volume_24h > m.trade_volume_24h
    · rcases ih p with h1 | h1
      · right; simp only [runningBest, if_pos h, h1]; exact List.mem_cons_self p ps
      · right; simp only [runningBest, if_pos h]; exact List.mem_cons_of_mem p h1
    · rcases ih m with h1 | h1
      · left; simp only [runningBest, if_neg h, h1]
      · right; simp only [runningBest, if_neg h]; exact List.mem_cons_of_mem p h1

/-- Every candidate scanned by `runningBest` has volume at most the result's. -/
theorem runningBest_le (l : List PoolInfo) : ∀ m q, q = m ∨ q ∈ l →
    q.trade_volume_24h ≤ (runningBest m l).trade_volume_24h := by
  induction l with
  | nil =>
    intro m q hq
    rcases hq with rfl | h
    · exact le_refl _
    · simp at h
  | cons p ps ih =>
    intro m q hq
    by_cases h : p.trade_volume_24h > m.trade_volume_24h
    · simp only [runningBest, if_pos h]
      rcases hq with rfl | hq
      · exact le_trans (le_of_lt h) (ih p p (Or.inl rfl))
      · rcases List.mem_cons.mp hq with h3 | hq2
        · exact ih p q (Or.inl h3)
        · exact ih p q (Or.inr hq2)
    · simp only [runningBest, if_neg h]
      rcases hq with rfl | hq
      · exact ih _ _ (Or.inl rfl)
      · rcases List.mem_cons.mp hq with h3 | hq2
        · rw [h3]; exact le_trans (not_lt.mp h) (ih m m (Or.inl rfl))
        · exact ih m q (Or.inr hq2)

/-- C5: `selectPool` keeps only candidates with
`bin_step ≥ ceil(positionRangePerSide * 10000 / 34)`, returns the remaining
candidate with the highest 24-hour trade volume (first encountered on ties),
and returns not-found when no candidate passes the filter; on the spec's
example list it returns the `bs:10, vol:200` candidate. -/
theorem c5_pool_selection (pools : List PoolInfo) (r : ℚ) :
    (getGoodPool pools r =
      firstHighestVolume (pools.filter (fun p => (⌈r * 10000 / 34⌉ : ℤ) ≤ p.bin_step))) ∧
    (getGoodPool pools r = none ↔
      pools.filter (fun p => (⌈r * 10000 / 34⌉ : ℤ) ≤ p.bin_step) = []) ∧
    (∀ p, getGoodPool pools r = some p →
      p ∈ pools.filter (fun q => (⌈r * 10000 / 34⌉ : ℤ) ≤ q.bin_step) ∧
      ∀ q ∈ pools.filter (fun q2 => (⌈r * 10000 / 34⌉ : ℤ) ≤ q2.bin_step),
        q.trade_volume_24h ≤ p.trade_volume_24h) ∧
    getGoodPool [⟨"poolA", 5, 100⟩, ⟨"poolB", 10, 50⟩, ⟨"poolC", 10, 200⟩] (17/500) =
      some ⟨"poolC", 10, 200⟩ ∧
    getGoodPool [⟨"poolTieOne", 10, 200⟩, ⟨"poolTieTwo", 10, 200⟩] (17/500) =
      some ⟨"poolTieOne", 10, 200⟩ := by
  have h1 := getGoodPool_eq_firstHighestVolume pools r
  have hc : (⌈(17/500 : ℚ) * 10000 / 34⌉ : ℤ) = 10 := by
    have h : ((17:ℚ)/500) * 10000 / 34 = ((10:ℤ) : ℚ) := by norm_num
    rw [h, Int.ceil_intCast]
  refine ⟨h1, ?_, ?_, ?_, ?_⟩
  · rw [h1]
    cases hf : pools.filter (fun p => (⌈r * 10000 / 34⌉ : ℤ) ≤ p.bin_step) with
    | nil => simp [firstHighestVolume]
    | cons p ps => simp [firstHighestVolume]
  · intro p hp
    rw [h1] at hp
    cases hf : pools.filter (fun p2 => (⌈r * 10000 / 34⌉ : ℤ) ≤ p2.bin_step) with
    | nil =>
      rw [hf] at hp
      simp [firstHighestVolume] at hp
    | cons a as =>
      rw [hf] at hp
      simp only [firstHighestVolume, Option.some.injEq] at hp
      constructor
      · rw [← hp]
        rcases runningBest_mem as a with h2 | h2
        · rw [h2]; exact List.mem_cons_self a as
        · exact List.mem_cons_of_mem a h2
      · intro q hq
        rw [← hp]
        rcases List.mem_cons.mp hq with h3 | hq2
        · exact runningBest_le as a q (Or.inl h3)
        · exact runningBest_le as a q (Or.inr hq2)
  · norm_num [getGoodPool, hc, poolReduceStep]
  · norm_num [getGoodPool, hc, poolReduceStep]

/-- Witness for `c5_pool_selection`: the selected `bs:10, vol:200` candidate
passes the filter and has maximal volume among the filtered candidates. -/
theorem c5_pool_selection_witness :
    (⟨"poolC", 10, 200⟩ : PoolInfo) ∈
      ([⟨"poolA", 5, 100⟩, ⟨"poolB", 10, 50⟩, ⟨"poolC", 10, 200⟩] : List PoolInfo).filter
        (fun q => (⌈(17/500 : ℚ) * 10000 / 34⌉ : ℤ) ≤ q.bin_step) ∧
    ∀ q ∈ ([⟨"poolA", 5, 100⟩, ⟨"poolB", 10, 50⟩, ⟨"poolC", 10, 200⟩] : List PoolInfo).filter
        (fun q2 => (⌈(17/500 : ℚ) * 10000 / 34⌉ : ℤ) ≤ q2.bin_step),
      q.trade_volume_24h ≤ (⟨"poolC", 10, 200⟩ : PoolInfo).trade_volume_24h :=
  (c5_pool_selection [⟨"poolA", 5, 100⟩, ⟨"poolB", 10, 50⟩, ⟨"poolC", 10, 200⟩]
      (17/500)).2.2.1 ⟨"poolC", 10, 200⟩
    (c5_pool_selection [⟨"poolA", 5, 100⟩, ⟨"poolB", 10, 50⟩, ⟨"poolC", 10, 200⟩]
      (17/500)).2.2.2.1

/-- C6: for all raw wallet balances, `usableBalances` returns
`max(0, raw − feeBuffer)` for whichever asset of the pair is the native gas
asset, and returns the raw balance exactly, unchanged, for the non-native
asset. -/
theorem c6_usable_balances (isANative isBNative : Bool) (rawA rawB feeBuffer : ℚ) :
    (isANative = true →
      (getUsableBalances isANative isBNative rawA rawB feeBuffer).1 = max 0 (rawA - feeBuffer)) ∧
    (isANative = false →
      (getUsableBalances isANative isBNative rawA rawB feeBuffer).1 = rawA) ∧
    (isBNative = true →
      (getUsableBalances isANative isBNative rawA rawB feeBuffer).2 = max 0 (rawB - feeBuffer)) ∧
    (isBNative = false →
      (getUsableBalances isANative isBNative rawA rawB feeBuffer).2 = rawB) := by
  cases isANative <;> cases isBNative <;> simp [getUsableBalances]

/-- Witness for `c6_usable_balances`: a SOL/USDC-style pair where asset A is
native, raw balances 5 and 7, buffer 1/10. -/
theorem c6_usable_balances_witness :
    (getUsableBalances true false 5 7 (1/10)).1 = max 0 (5 - 1/10) ∧
    (getUsableBalances true false 5 7 (1/10)).2 = 7 :=
  ⟨(c6_usable_balances true false 5 7 (1/10)).1 rfl,
   (c6_usable_balances true false 5 7 (1/10)).2.2.2 rfl⟩

/-- C7: the bin range per side passed to `addLiquidity` is
`min(ceil(positionRangePerSide * 10000 / binStep), maxBinsPerSide)` with
`maxBinsPerSide = 34`; in particular with `binStep = 25` and
`positionRangePerSide = 0.05` the range interval is `min(20, 34) = 20`. -/
theorem c7_range_interval (r binStep : ℚ) :
    addLiquidityRangeInterval r binStep = min ⌈r * 10000 / binStep⌉ 34 ∧
    addLiquidityRangeInterval (5/100) 25 = 20 := by
  refine ⟨rfl, ?_⟩
  have h : ((5:ℚ)/100) * 10000 / 25 = ((20:ℤ) : ℚ) := by norm_num
  rw [addLiquidityRangeInterval, h, Int.ceil_intCast]
  decide

/-- C2: the rebalance computation targets a 50/50 value split
(`targetA = (totalValue/2)/price`, `targetB = totalValue/2`), sells the
surplus of whichever asset exceeds its target, plans no swap when neither
does, and the two sell directions are mutually exclusive. -/
theorem c2_rebalance_fifty_fifty (a b p : ℚ) (hp : 0 < p) (htot : 0 < a * p + b) :
    (a > (a * p + b) / 2 / p →
      rebalancePlan a b p = .sellAForB (a - (a * p + b) / 2 / p)) ∧
    (b > (a * p + b) / 2 →
      rebalancePlan a b p = .sellBForA (b - (a * p + b) / 2)) ∧
    (a ≤ (a * p + b) / 2 / p → b ≤ (a * p + b) / 2 →
      rebalancePlan a b p = .noSwap) ∧
    ¬(a > (a * p + b) / 2 / p ∧ b > (a * p + b) / 2) := by
  have hexcl : ¬(a > (a * p + b) / 2 / p ∧ b > (a * p + b) / 2) := by
    rintro ⟨ha, hb⟩
    rw [gt_iff_lt, div_lt_iff₀ hp, div_lt_iff₀ (by norm_num : (0:ℚ) < 2)] at ha
    rw [gt_iff_lt, div_lt_iff₀ (by norm_num : (0:ℚ) < 2)] at hb
    linarith
  refine ⟨?_, ?_, ?_, hexcl⟩
  · intro ha
    simp only [rebalancePlan]
    rw [if_pos ha]
  · intro hb
    have hna : ¬(a > (a * p + b) / 2 / p) := fun ha => hexcl ⟨ha, hb⟩
    simp only [rebalancePlan]
    rw [if_neg hna, if_pos hb]
  · intro ha hb
    simp only [rebalancePlan]
    rw [if_neg (not_lt.mpr ha), if_neg (not_lt.mpr hb)]

/-- Witness for `c2_rebalance_fifty_fifty`: balances (3, 1) at price 1 sell
the surplus of asset A. -/
theorem c2_rebalance_fifty_fifty_witness :
    rebalancePlan 3 1 1 = .sellAForB (3 - (3 * 1 + 1) / 2 / 1) :=
  (c2_rebalance_fifty_fifty 3 1 1 (by norm_num) (by norm_num)).1 (by norm_num)

/-- C9 counterexample: the generic-pair `rebalancePosition`
(`meteoraOptimizer.ts` lines 254–303) has no minimum-size gate: with balances
(1.001, 1) at price 1 the surplus `1/2000` is below the SOL/USDC variant's
`0.01` threshold, yet a swap of asset A is planned, not "no swap". -/
theorem c9_counterexample :
    rebalancePlan (1001/1000) 1 1 = .sellAForB (1/2000) ∧ (1/2000 : ℚ) < 1/100 := by
  constructor
  · simp only [rebalancePlan]
    rw [if_pos (by norm_num : ((1001:ℚ)/1000) > ((1001/1000 : ℚ) * 1 + 1) / 2 / 1)]
    norm_num
  · norm_num

/-- C9 amended: in the historical SOL/USDC variant of `rebalancePosition`
(`meteoraOptimizer.ts` lines 616–706), a surplus below the hard-coded `0.01`
threshold suppresses the swap in either direction. -/
theorem c9_amended_sol_usdc_gate (s u p : ℚ) (hp : 0 < p)
    (h : (s > (s * p + u) / 2 / p ∧ s - (s * p + u) / 2 / p < 1 / 100) ∨
         (u > (s * p + u) / 2 ∧ u - (s * p + u) / 2 < 1 / 100)) :
    rebalancePlanSolUsdc s u p = .noSwap := by
  rcases h with ⟨hs, hlt⟩ | ⟨hu, hlt⟩
  · simp only [rebalancePlanSolUsdc]
    rw [if_pos hs, if_pos hlt]
  · have hns : ¬(s > (s * p + u) / 2 / p) := by
      have hle : s ≤ (s * p + u) / 2 / p := by
        rw [le_div_iff₀ hp, le_div_iff₀ (by norm_num : (0:ℚ) < 2)]
        rw [gt_iff_lt, div_lt_iff₀ (by norm_num : (0:ℚ) < 2)] at hu
        linarith
      exact not_lt.mpr hle
    simp only [rebalancePlanSolUsdc]
    rw [if_neg hns, if_pos hu, if_pos hlt]

/-- Witness for `c9_amended_sol_usdc_gate`: the sub-threshold surplus of
`c9_counterexample` is suppressed by the SOL/USDC variant. -/
theorem c9_amended_sol_usdc_gate_witness :
    rebalancePlanSolUsdc (1001/1000) 1 1 = .noSwap :=
  c9_amended_sol_usdc_gate (1001/1000) 1 1 (by norm_num)
    (Or.inl ⟨by norm_num, by norm_num⟩)

/-- C3: `retry` with the default budget of 3 attempts: an operation whose
failure message contains `'insufficient funds'` is attempted exactly once,
reclassified and re-raised with no delay; an operation failing twice with
other errors then succeeding returns the success value with two delays in
between; when all attempts fail with other errors the last error is raised. -/
theorem c3_retry_policy {α : Type} (fn : ℕ → Except String α) :
    (∀ e, fn 0 = .error e → strIncludes e "insufficient funds" = true →
        retry fn 3 = .fatal "Insufficient funds" 1 0) ∧
    (∀ e0 e1 v, fn 0 = .error e0 → fn 1 = .error e1 → fn 2 = .ok v →
        strIncludes e0 "insufficient funds" = false →
        strIncludes e1 "insufficient funds" = false →
        retry fn 3 = .ok v 3 2) ∧
    (∀ e0 e1 e2, fn 0 = .error e0 → fn 1 = .error e1 → fn 2 = .error e2 →
        strIncludes e0 "insufficient funds" = false →
        strIncludes e1 "insufficient funds" = false →
        strIncludes e2 "insufficient funds" = false →
        retry fn 3 = .thrownLast (some e2) 3 2) := by
  refine ⟨?_, ?_, ?_⟩
  · intro e h0 hpat
    simp [retry, retryLoop, h0, hpat]
  · intro e0 e1 v h0 h1 h2 hp0 hp1
    simp [retry, retryLoop, h0, h1, h2, hp0, hp1]
  · intro e0 e1 e2 h0 h1 h2 hp0 hp1 hp2
    simp [retry, retryLoop, h0, h1, h2, hp0, hp1, hp2]

/-- Witness for `c3_retry_policy`: an insufficient-funds failure is fatal on
the first attempt; a twice-failing then succeeding operation returns the
value with two delays. -/
theorem c3_retry_policy_witness :
    retry (fun _ => (.error "insufficient funds for swap" : Except String ℕ)) 3 =
      .fatal "Insufficient funds" 1 0 ∧
    retry (fun i => if i = 2 then (.ok 42 : Except String ℕ) else .error "timeout") 3 =
      .ok 42 3 2 :=
  ⟨(c3_retry_policy _).1 "insufficient funds for swap" rfl (by decide),
   (c3_retry_policy _).2.1 "timeout" "timeout" 42 rfl rfl rfl (by decide) (by decide)⟩

/-- C10: a failure whose message contains the lowercase `'insufficient funds'`
is replaced by a fresh error whose message is exactly `'Insufficient funds'`;
that replacement message does not itself satisfy the case-sensitive check, so
an outer `retry` wrapped around an inner one retries the re-raised error
through its whole budget instead of short-circuiting. -/
theorem c10_fatal_reclassification :
    (∀ (fn : ℕ → Except String ℕ) e, fn 0 = .error e →
        strIncludes e "insufficient funds" = true →
        retry fn 3 = .fatal "Insufficient funds" 1 0) ∧
    strIncludes "Insufficient funds" "insufficient funds" = false ∧
    retry (fun _ => (.error "Insufficient funds" : Except String ℕ)) 3 =
      .thrownLast (some "Insufficient funds") 3 2 := by
  refine ⟨?_, by decide, ?_⟩
  · intro fn e h0 hpat
    simp [retry, retryLoop, h0, hpat]
  · have hff : strIncludes "Insufficient funds" "insufficient funds" = false := by decide
    simp [retry, retryLoop, hff]

/-- Witness for `c10_fatal_reclassification`: a concrete lowercase
insufficient-funds failure is reclassified on the first attempt. -/
theorem c10_fatal_reclassification_witness :
    retry (fun _ => (.error "transfer failed: insufficient funds" : Except String ℕ)) 3 =
      .fatal "Insufficient funds" 1 0 :=
  c10_fatal_reclassification.1 _ "transfer failed: insufficient funds" rfl (by decide)

/-- C1: a tick whose active bin id falls within `[lowerBinId, upperBinId]`
inclusive takes no action and returns "unchanged" (`false`); a tick whose
active bin id falls strictly outside performs remove-liquidity, fee-buffer
re-verification, the 50/50 rebalance swap and add-liquidity in that order,
records the new lower/upper bin ids, and returns "changed" (`true`). -/
theorem c1_tick_decision (st : OptState) (env : TickEnv) (feeBuffer : ℚ)
    (addr : String) (binId : ℤ)
    (haddr : st.workingPoolAddress = some addr)
    (hbin : env.activeBinId = .ok binId) :
    (st.currLowerBinId ≤ binId → binId ≤ st.currUpperBinId →
      optimize st env feeBuffer = .ok (st, false, [.getActiveBin])) ∧
    (∀ lo hi, (binId < st.currLowerBinId ∨ binId > st.currUpperBinId) →
      env.removeLiquidity = .ok () → feeBuffer ≤ env.nativeBalance →
      env.rebalance = .ok () → env.addLiquidityResult = .ok (lo, hi) →
      optimize st env feeBuffer =
        .ok ({ st with currLowerBinId := lo, currUpperBinId := hi }, true,
          [.getActiveBin, .removeLiquidity, .verifyBuffer, .rebalanceSwap,
           .addLiquidity])) := by
  constructor
  · intro h1 h2
    have hcond : ¬(binId < st.currLowerBinId ∨ binId > st.currUpperBinId) := by
      push_neg
      exact ⟨h1, h2⟩
    simp [optimize, optimizeTry, haddr, hbin, hcond]
  · intro lo hi hcond hrem hbuf hreb hadd
    have hnb : ¬(env.nativeBalance < feeBuffer) := not_lt.mpr hbuf
    simp [optimize, optimizeTry, haddr, hbin, hcond, hrem, hnb, hreb, hadd]

/-- Witness for `c1_tick_decision`: with range `[90, 110]`, active bin 100
returns "unchanged"; active bin 111 repositions in the stated order and
records the new range `[101, 141]`. -/
theorem c1_tick_decision_witness :
    optimize ⟨some "pool", some 25, 90, 110⟩
      ⟨.ok 100, .ok (), 1, .ok (), .ok (100, 120), .error "unused"⟩ (1/10) =
      .ok (⟨some "pool", some 25, 90, 110⟩, false, [.getActiveBin]) ∧
    optimize ⟨some "pool", some 25, 90, 110⟩
      ⟨.ok 111, .ok (), 1, .ok (), .ok (101, 141), .error "unused"⟩ (1/10) =
      .ok (⟨some "pool", some 25, 101, 141⟩, true,
        [.getActiveBin, .removeLiquidity, .verifyBuffer, .rebalanceSwap,
         .addLiquidity]) := by
  constructor
  · exact (c1_tick_decision _ _ _ "pool" 100 rfl rfl).1 (by norm_num) (by norm_num)
  · exact (c1_tick_decision _ _ _ "pool" 111 rfl rfl).2 101 141 (by norm_num) rfl
      (by norm_num) rfl rfl

/-- C4: when the tick body throws, an error containing
`'No positions found in this pool'` makes `optimize` re-run cold start and
return "unchanged" (`false`); every other tick failure is reported via the
alerting collaborator and the tick returns "unchanged" (`false`) rather than
re-raising. -/
theorem c4_tick_error_handling (st : OptState) (env : TickEnv) (feeBuffer : ℚ)
    (trace : List Action) (e : String)
    (herr : optimizeTry st env feeBuffer = (trace, .error e)) :
    (strIncludes e "No positions found in this pool" = true →
      ∀ st2, env.coldStart = .ok st2 →
        optimize st env feeBuffer = .ok (st2, false, trace ++ [.coldStart, .alert e])) ∧
    (strIncludes e "No positions found in this pool" = false →
      optimize st env feeBuffer = .ok (st, false, trace ++ [.alert e])) := by
  constructor
  · intro hpat st2 hcold
    simp [optimize, herr, hpat, hcold]
  · intro hpat
    simp [optimize, herr, hpat]

/-- Witness for `c4_tick_error_handling`: a position-not-found failure
re-runs cold start and returns `false`; an unrelated RPC failure alerts and
returns `false` with the state untouched. -/
theorem c4_tick_error_handling_witness :
    optimize ⟨some "pool", some 25, 90, 110⟩
      ⟨.error "No positions found in this pool", .ok (), 1, .ok (), .ok (100, 120),
        .ok ⟨some "poolTwo", some 10, 5, 15⟩⟩ (1/10) =
      .ok (⟨some "poolTwo", some 10, 5, 15⟩, false,
        [.getActiveBin, .coldStart, .alert "No positions found in this pool"]) ∧
    optimize ⟨some "pool", some 25, 90, 110⟩
      ⟨.error "rpc timeout", .ok (), 1, .ok (), .ok (100, 120), .error "unused"⟩ (1/10) =
      .ok (⟨some "pool", some 25, 90, 110⟩, false,
        [.getActiveBin, .alert "rpc timeout"]) := by
  constructor
  · exact (c4_tick_error_handling ⟨some "pool", some 25, 90, 110⟩
      ⟨.error "No positions found in this pool", .ok (), 1, .ok (), .ok (100, 120),
        .ok ⟨some "poolTwo", some 10, 5, 15⟩⟩ (1/10) [.getActiveBin]
      "No positions found in this pool" rfl).1 (by decide) _ rfl
  · exact (c4_tick_error_handling ⟨some "pool", some 25, 90, 110⟩
      ⟨.error "rpc timeout", .ok (), 1, .ok (), .ok (100, 120), .error "unused"⟩
      (1/10) [.getActiveBin] "rpc timeout" rfl).2 (by decide)

/-- C8 counterexample: two repositions with identical new-position data
(active bin 111, new position `[100, 120]`) starting from WorkingPool values
that differ only in pool address and bin step end in different WorkingPool
values: the pool address and bin step are carried over from the old value,
not replaced by the reposition, so the fields are not all replaced together. -/
theorem c8_counterexample :
    optimize ⟨some "poolOne", some 25, 90, 110⟩
      ⟨.ok 111, .ok (), 1, .ok (), .ok (100, 120), .error "unused"⟩ (1/10) =
      .ok (⟨some "poolOne", some 25, 100, 120⟩, true,
        [.getActiveBin, .removeLiquidity, .verifyBuffer, .rebalanceSwap,
         .addLiquidity]) ∧
    optimize ⟨some "poolTwo", some 50, 90, 110⟩
      ⟨.ok 111, .ok (), 1, .ok (), .ok (100, 120), .error "unused"⟩ (1/10) =
      .ok (⟨some "poolTwo", some 50, 100, 120⟩, true,
        [.getActiveBin, .removeLiquidity, .verifyBuffer, .rebalanceSwap,
         .addLiquidity]) ∧
    (⟨some "poolOne", some 25, 100, 120⟩ : OptState) ≠
      ⟨some "poolTwo", some 50, 100, 120⟩ := by
  refine ⟨?_, ?_, by decide⟩ <;>
    norm_num [optimize, optimizeTry, strIncludes, charsInclude]

/-- C8 amended: on a reposition the lower and upper bin ids are replaced
together, both taken from the newly opened position, while the pool address
and bin step persist unchanged from cold start (the same pool is reused). -/
theorem c8_amended_reposition_update (st : OptState) (env : TickEnv) (feeBuffer : ℚ)
    (addr : String) (binId lo hi : ℤ)
    (haddr : st.workingPoolAddress = some addr)
    (hbin : env.activeBinId = .ok binId)
    (hout : binId < st.currLowerBinId ∨ binId > st.currUpperBinId)
    (hrem : env.removeLiquidity = .ok ())
    (hbuf : feeBuffer ≤ env.nativeBalance)
    (hreb : env.rebalance = .ok ())
    (hadd : env.addLiquidityResult = .ok (lo, hi)) :
    optimize st env feeBuffer =
      .ok ({ workingPoolAddress := st.workingPoolAddress,
             workingPoolBinStep := st.workingPoolBinStep,
             currLowerBinId := lo, currUpperBinId := hi }, true,
        [.getActiveBin, .removeLiquidity, .verifyBuffer, .rebalanceSwap,
         .addLiquidity]) := by
  have hnb : ¬(env.nativeBalance < feeBuffer) := not_lt.mpr hbuf
  simp [optimize, optimizeTry, haddr, hbin, hout, hrem, hnb, hreb, hadd]

/-- Witness for `c8_amended_reposition_update`: the first reposition of
`c8_counterexample`, spelled through the general theorem. -/
theorem c8_amended_reposition_update_witness :
    optimize ⟨some "poolOne", some 25, 90, 110⟩
      ⟨.ok 111, .ok (), 1, .ok (), .ok (100, 120), .error "unused"⟩ (1/10) =
      .ok (⟨some "poolOne", some 25, 100, 120⟩, true,
        [.getActiveBin, .removeLiquidity, .verifyBuffer, .rebalanceSwap,
         .addLiquidity]) :=
  c8_amended_reposition_update _ _ (1/10) "poolOne" 111 100 120 rfl rfl
    (by norm_num) rfl (by norm_num) rfl rfl

end MeteoraRebalancer
